import Mathlib

/-!
Verification development for the lightway repository.

Part 1 embeds pkg/httpclient/httpclient.go: the retry configuration with its
defaults, the exponential backoff computation, the retryability decision and
the attempt loop of RequestBytes.

Part 2 embeds pkg/router/group.go and pkg/context/context.go: the write-once
response writer, the JSON response envelope, the error-translating standard
handler built by Handle, the middleware fold, and the group/use registration
discipline.

Machine integers (Go int, time.Duration = int64 nanoseconds) are modelled as
Int; status codes as Int; overflow does not occur at any value the theorems
touch and is called out in comments where the source could overflow.
-/

/-- Transport-level errors (network failures returned by httpClient.Do) are
modelled as abstract tokens; the code never inspects them beyond nil-ness. -/
abbrev TransportErr := Nat

/-- Outcome of one attempt of the request loop in RequestBytes: either
httpClient.Do returns an error, or io.ReadAll fails, or a response with a
status code and a body is received. -/
inductive Outcome where
  | transportErr (e : TransportErr)
  | readErr
  | response (status : Int) (body : String)
deriving DecidableEq

/-- The structured shape of the errors RequestBytes can return.
execFail e models fmt.Errorf("failed to execute request: %w", err);
apiStatus s models fmt.Errorf("api error status %d", s);
readBody models fmt.Errorf("failed to read body: %w", err);
allAttemptsFailed n last models fmt.Errorf("all %d attempts failed: %w", n, lastErr);
ctxCancelled models ctx.Err() returned from the cancelled select branch. -/
inductive ReqError where
  | execFail (e : TransportErr)
  | apiStatus (status : Int)
  | readBody
  | allAttemptsFailed (attempts : Int) (last : Option ReqError)
  | ctxCancelled

/-- RetryConfig from httpclient.go. Delays are in nanoseconds (time.Duration).
shouldRetry receives the response status (or none) and the transport error
(or none), exactly like the Go predicate receives (resp, err). -/
structure RetryConfig where
  maxRetries : Int
  baseDelay : Int
  maxDelay : Int
  retryOn : List Int
  shouldRetry : Option (Option Int → Option TransportErr → Bool)

/-- The membership loop of isRetryable: for _, code := range r.RetryOn
followed by resp.StatusCode == code. -/
def statusIn : List Int → Int → Bool
  | [], _ => false
  | code :: rest, s => if s = code then true else statusIn rest s

/-- applyDefaults from httpclient.go. The Go method mutates the fields with
four sequential if statements; each condition reads only fields the earlier
statements do not modify, so the simultaneous record below is the same
function. -/
def RetryConfig.applyDefaults (r : RetryConfig) : RetryConfig :=
  { maxRetries := if r.maxRetries ≤ 0 then 3 else r.maxRetries
    baseDelay := if r.baseDelay ≤ 0 then 500000000 else r.baseDelay
    maxDelay := if r.maxDelay ≤ 0 then 10000000000 else r.maxDelay
    retryOn :=
      if r.retryOn = [] ∧ r.shouldRetry.isNone = true then [429, 502, 503, 504]
      else r.retryOn
    shouldRetry := r.shouldRetry }

/-- isRetryable from httpclient.go. A custom predicate fully overrides the
defaults; otherwise a non-nil error is retryable and otherwise membership of
the status in RetryOn decides. The (none, none) case would dereference a nil
response in Go and is unreachable from the two call sites. -/
def RetryConfig.isRetryable (r : RetryConfig) (resp : Option Int)
    (err : Option TransportErr) : Bool :=
  match r.shouldRetry with
  | some p => p resp err
  | none =>
    match err with
    | some _ => true
    | none =>
      match resp with
      | some status => statusIn r.retryOn status
      | none => false

/-- Number of binary digits of n, computed with explicit fuel so that the
recursion is structural; fuel n suffices for every n. -/
def bitLenFuel : Nat → Nat → Nat
  | 0, _ => 0
  | fuel + 1, n => if n = 0 then 0 else bitLenFuel fuel (n / 2) + 1

def bitLen (n : Nat) : Nat := bitLenFuel n n

/-- Round a natural number to the nearest IEEE-754 double (53-bit significand,
ties to even), returning the exact value of that double. This is the value of
the Go conversion float64(n) for n below the int64 range. -/
def f64roundNat (n : Nat) : Nat :=
  if n < 2 ^ 53 then n
  else
    let e := bitLen n - 53
    let q := n / 2 ^ e
    let r := n % 2 ^ e
    let half := 2 ^ (e - 1)
    if r < half then q * 2 ^ e
    else if half < r then (q + 1) * 2 ^ e
    else if q % 2 = 0 then q * 2 ^ e else (q + 1) * 2 ^ e

/-- Go conversion float64(i) for an int64, as an exact integer. -/
def f64round (i : Int) : Int :=
  if 0 ≤ i then (f64roundNat i.toNat : Int) else -(f64roundNat (-i).toNat : Int)

/-- backoff from httpclient.go: time.Duration(float64(r.BaseDelay) *
math.Pow(2, float64(attempt))) capped at MaxDelay. float64(BaseDelay) rounds
the delay to 53 significant bits; multiplying the resulting double by the
exact power 2^attempt is exact in IEEE-754, and converting back to
time.Duration truncates, which is exact on these integer values. The model
covers the regime where the product stays below 2^63; beyond it the Go
float-to-int64 conversion is unspecified, and the theorems below carry that
bound as a hypothesis. -/
def RetryConfig.backoff (r : RetryConfig) (attempt : Nat) : Int :=
  let delay := f64round r.baseDelay * 2 ^ attempt
  if r.maxDelay < delay then r.maxDelay else delay

/-- The client keeps an http.Client (irrelevant to the modelled behaviour) and
an optional retry configuration. -/
structure Client where
  retryConfig : Option RetryConfig

/-- NewClient: default configuration, no retry. -/
def newClient : Client := ⟨none⟩

/-- WithRetry from httpclient.go: applies the defaults to the given
configuration and attaches it. -/
def Client.withRetry (_ : Client) (cfg : RetryConfig) : Client :=
  ⟨some cfg.applyDefaults⟩

/-- The environment a RequestBytes call runs against: the outcome of each
attempt (0-indexed), and, for each attempt index i ≥ 1, whether the
select between ctx.Done() and time.After(delay) before attempt i takes the
cancellation branch. -/
structure Env where
  outcome : Nat → Outcome
  cancelledBefore : Nat → Bool

/-- The guard c.retryConfig != nil && retryCfg.isRetryable(...) used at both
retry decision points of RequestBytes. -/
def retryGate (rc : Option RetryConfig) (resp : Option Int)
    (err : Option TransportErr) : Bool :=
  match rc with
  | some r => r.isRetryable resp err
  | none => false

/-- Result of a RequestBytes call: the returned body, the returned error, and
the number of times httpClient.Do ran (observable by a test server). -/
structure RunResult where
  body : Option String
  err : Option ReqError
  attemptsMade : Nat

/-- The attempt loop of RequestBytes. The arguments after env are the current
attempt index, the remaining loop iterations (maxAttempts - attempt), and the
lastBody / lastErr accumulators. maxA is the maxAttempts value printed into
the exhaustion error. Creating the request and serializing the JSON body
cannot fail for the values modelled here, so those two early returns are
omitted. The backoff delay before a retry influences only timing and logging;
its interaction with cancellation is captured by Env.cancelledBefore. -/
def runLoop (rc : Option RetryConfig) (maxA : Int) (env : Env) :
    Nat → Nat → Option String → Option ReqError → RunResult
  | _, 0, lastBody, lastErr =>
    ⟨lastBody, some (.allAttemptsFailed maxA lastErr), 0⟩
  | attempt, n + 1, lastBody, _ =>
    if 0 < attempt ∧ env.cancelledBefore attempt = true then
      ⟨lastBody, some .ctxCancelled, 0⟩
    else
      match env.outcome attempt with
      | .transportErr e =>
        if retryGate rc none (some e) then
          let rest := runLoop rc maxA env (attempt + 1) n lastBody (some (.execFail e))
          { rest with attemptsMade := rest.attemptsMade + 1 }
        else ⟨none, some (.execFail e), 1⟩
      | .readErr => ⟨none, some .readBody, 1⟩
      | .response s b =>
        if 400 ≤ s then
          if retryGate rc (some s) none then
            let rest := runLoop rc maxA env (attempt + 1) n (some b) (some (.apiStatus s))
            { rest with attemptsMade := rest.attemptsMade + 1 }
          else ⟨some b, some (.apiStatus s), 1⟩
        else ⟨some b, none, 1⟩

/-- RequestBytes from httpclient.go: maxAttempts is 1 without a retry
configuration and 1 + MaxRetries with one. -/
def RequestBytes (c : Client) (env : Env) : RunResult :=
  match c.retryConfig with
  | none => runLoop none 1 env 0 1 none none
  | some r =>
    runLoop (some r) (1 + r.maxRetries) env 0 (1 + r.maxRetries).toNat none none

/-- Whether attempt i fails in a way the loop retries: a retryable transport
error, or a response with status at least 400 whose status is retryable. -/
def failsRetryably (r : RetryConfig) (env : Env) (i : Nat) : Bool :=
  match env.outcome i with
  | .transportErr e => r.isRetryable none (some e)
  | .readErr => false
  | .response s _ => decide (400 ≤ s) && r.isRetryable (some s) none

/-- The error value lastErr takes after an attempt with the given outcome. -/
def outcomeErr : Outcome → ReqError
  | .transportErr e => .execFail e
  | .readErr => .readBody
  | .response s _ => .apiStatus s

/-- The lastBody accumulator after running attempts a, a+1, ..., a+n-1
starting from b: each attempt that received a response replaces the
accumulator with that response body, so the result is the last received
response body in the window (or b if none was received). -/
def trackBody (env : Env) : Nat → Nat → Option String → Option String
  | _, 0, b => b
  | a, n + 1, b =>
    trackBody env (a + 1) n
      (match env.outcome a with
       | .response _ rb => some rb
       | _ => b)

/-- The lastErr accumulator after running attempts a, a+1, ..., a+n-1
starting from le. -/
def trackErr (env : Env) : Nat → Nat → Option ReqError → Option ReqError
  | _, 0, le => le
  | a, n + 1, _ => trackErr env (a + 1) n (some (outcomeErr (env.outcome a)))

/-- A server that always answers 503, never any cancellation. -/
def envAlways503 : Env :=
  ⟨fun _ => .response 503 "service unavailable", fun _ => false⟩

/-! ### Helper lemmas for the retry loop -/

lemma statusIn_eq_false_of_not_mem (l : List Int) (s : Int) (h : s ∉ l) :
    statusIn l s = false := by
  induction l with
  | nil => rfl
  | cons c rest ih =>
    rw [List.mem_cons] at h
    push_neg at h
    rw [statusIn, if_neg h.1]
    exact ih h.2

lemma one_le_applyDefaults_maxRetries (r : RetryConfig) :
    1 ≤ r.applyDefaults.maxRetries := by
  show (1 : Int) ≤ if r.maxRetries ≤ 0 then 3 else r.maxRetries
  split_ifs <;> omega

lemma trackErr_last (env : Env) :
    ∀ (n a : Nat) (le : Option ReqError),
      trackErr env a (n + 1) le = some (outcomeErr (env.outcome (a + n))) := by
  intro n
  induction n with
  | zero => intro a le; rfl
  | succ n ih =>
    intro a le
    rw [trackErr, ih (a + 1)]
    rw [show a + 1 + n = a + (n + 1) from by omega]

/-- Under attempts that all fail retryably and no cancellation, the loop runs
all remaining iterations and exhausts. -/
lemma runLoop_exhaust (r : RetryConfig) (maxA : Int) (env : Env) :
    ∀ (n attempt : Nat) (lastBody : Option String) (lastErr : Option ReqError),
      (∀ j, j < n → failsRetryably r env (attempt + j) = true) →
      (∀ j, j < n → env.cancelledBefore (attempt + j) = false) →
      runLoop (some r) maxA env attempt n lastBody lastErr =
        ⟨trackBody env attempt n lastBody,
         some (.allAttemptsFailed maxA (trackErr env attempt n lastErr)), n⟩ := by
  intro n
  induction n with
  | zero => intro attempt lastBody lastErr _ _; rfl
  | succ n ih =>
    intro attempt lastBody lastErr hfail hnc
    have hc0 : env.cancelledBefore attempt = false := by simpa using hnc 0 (by omega)
    have hf0 : failsRetryably r env attempt = true := by simpa using hfail 0 (by omega)
    have hfS : ∀ j, j < n → failsRetryably r env (attempt + 1 + j) = true := by
      intro j hj
      have := hfail (j + 1) (by omega)
      rwa [show attempt + (j + 1) = attempt + 1 + j from by omega] at this
    have hncS : ∀ j, j < n → env.cancelledBefore (attempt + 1 + j) = false := by
      intro j hj
      have := hnc (j + 1) (by omega)
      rwa [show attempt + (j + 1) = attempt + 1 + j from by omega] at this
    simp only [runLoop]
    rw [if_neg (by simp [hc0])]
    cases ho : env.outcome attempt with
    | transportErr e =>
      unfold failsRetryably at hf0
      rw [ho] at hf0
      have hgate : retryGate (some r) none (some e) = true := hf0
      dsimp only
      rw [if_pos hgate, ih (attempt + 1) lastBody (some (.execFail e)) hfS hncS]
      conv_rhs => rw [trackBody, trackErr, ho]
      rfl
    | readErr =>
      unfold failsRetryably at hf0
      rw [ho] at hf0
      exact absurd hf0 (by simp)
    | response s b =>
      unfold failsRetryably at hf0
      rw [ho, Bool.and_eq_true] at hf0
      obtain ⟨hs4, hret⟩ := hf0
      have hs4' : (400 : Int) ≤ s := of_decide_eq_true hs4
      have hgate : retryGate (some r) (some s) none = true := hret
      dsimp only
      rw [if_pos hs4', if_pos hgate, ih (attempt + 1) (some b) (some (.apiStatus s)) hfS hncS]
      conv_rhs => rw [trackBody, trackErr, ho]
      rfl

/-- If the context cancellation fires during the wait before attempt
attempt + k, and all earlier attempts in the window fail retryably without
cancellation, the loop returns the cancellation error after exactly k
attempts. -/
lemma runLoop_cancel (r : RetryConfig) (maxA : Int) (env : Env) :
    ∀ (k attempt n : Nat) (lastBody : Option String) (lastErr : Option ReqError),
      k < n → 0 < attempt + k →
      (∀ j, j < k → failsRetryably r env (attempt + j) = true) →
      (∀ j, j < k → env.cancelledBefore (attempt + j) = false) →
      env.cancelledBefore (attempt + k) = true →
      runLoop (some r) maxA env attempt n lastBody lastErr =
        ⟨trackBody env attempt k lastBody, some .ctxCancelled, k⟩ := by
  intro k
  induction k with
  | zero =>
    intro attempt n lastBody lastErr hkn hpos hfail hnc hcan
    obtain ⟨m, rfl⟩ : ∃ m, n = m + 1 := ⟨n - 1, by omega⟩
    simp only [runLoop]
    rw [if_pos ⟨by simpa using hpos, by simpa using hcan⟩]
    rfl
  | succ k ih =>
    intro attempt n lastBody lastErr hkn hpos hfail hnc hcan
    obtain ⟨m, rfl⟩ : ∃ m, n = m + 1 := ⟨n - 1, by omega⟩
    have hc0 : env.cancelledBefore attempt = false := by simpa using hnc 0 (by omega)
    have hf0 : failsRetryably r env attempt = true := by simpa using hfail 0 (by omega)
    have hfS : ∀ j, j < k → failsRetryably r env (attempt + 1 + j) = true := by
      intro j hj
      have := hfail (j + 1) (by omega)
      rwa [show attempt + (j + 1) = attempt + 1 + j from by omega] at this
    have hncS : ∀ j, j < k → env.cancelledBefore (attempt + 1 + j) = false := by
      intro j hj
      have := hnc (j + 1) (by omega)
      rwa [show attempt + (j + 1) = attempt + 1 + j from by omega] at this
    have hcanS : env.cancelledBefore (attempt + 1 + k) = true := by
      rwa [show attempt + (k + 1) = attempt + 1 + k from by omega] at hcan
    simp only [runLoop]
    rw [if_neg (by simp [hc0])]
    cases ho : env.outcome attempt with
    | transportErr e =>
      unfold failsRetryably at hf0
      rw [ho] at hf0
      have hgate : retryGate (some r) none (some e) = true := hf0
      dsimp only
      rw [if_pos hgate,
        ih (attempt + 1) m lastBody (some (.execFail e)) (by omega) (by omega) hfS hncS hcanS]
      have htb : trackBody env attempt (k + 1) lastBody = trackBody env (attempt + 1) k lastBody := by
        rw [trackBody, ho]
      rw [htb]
    | readErr =>
      unfold failsRetryably at hf0
      rw [ho] at hf0
      exact absurd hf0 (by simp)
    | response s b =>
      unfold failsRetryably at hf0
      rw [ho, Bool.and_eq_true] at hf0
      obtain ⟨hs4, hret⟩ := hf0
      have hs4' : (400 : Int) ≤ s := of_decide_eq_true hs4
      have hgate : retryGate (some r) (some s) none = true := hret
      dsimp only
      rw [if_pos hs4', if_pos hgate,
        ih (attempt + 1) m (some b) (some (.apiStatus s)) (by omega) (by omega) hfS hncS hcanS]
      have htb : trackBody env attempt (k + 1) lastBody = trackBody env (attempt + 1) k (some b) := by
        rw [trackBody, ho]
      rw [htb]

/-! ### Claims about the HTTP client -/

/-- C2, counterexample: backoff does not equal min(baseDelay * 2^n, maxDelay)
for every configuration. With baseDelay = 2^53 + 1 ns the conversion
float64(BaseDelay) rounds to 2^53 (ties to even), so backoff(0) is
2^53 rather than min(2^53 + 1, 2^60) = 2^53 + 1. -/
theorem c2_backoff_counterexample :
    RetryConfig.backoff ⟨3, 9007199254740993, 1152921504606846976, [], none⟩ 0 ≠
      min ((9007199254740993 : Int) * 2 ^ 0) (1152921504606846976 : Int) := by
  decide

/-- C2, amended: whenever the base delay is exactly representable as a
float64 (which holds for every delay below 2^53 ns, about 104 days) and
baseDelay * 2^n stays inside the int64 range, backoff(n) equals
min(baseDelay * 2^n, maxDelay); and with base = 100ms, max = 1s the schedule
backoff(0..4) is [100ms, 200ms, 400ms, 800ms, 1000ms]. -/
theorem c2_backoff_amended :
    (∀ (r : RetryConfig) (n : Nat), f64round r.baseDelay = r.baseDelay →
        r.baseDelay * 2 ^ n < 2 ^ 63 →
        r.backoff n = min (r.baseDelay * 2 ^ n) r.maxDelay) ∧
      RetryConfig.backoff ⟨3, 100000000, 1000000000, [], none⟩ 0 = 100000000 ∧
      RetryConfig.backoff ⟨3, 100000000, 1000000000, [], none⟩ 1 = 200000000 ∧
      RetryConfig.backoff ⟨3, 100000000, 1000000000, [], none⟩ 2 = 400000000 ∧
      RetryConfig.backoff ⟨3, 100000000, 1000000000, [], none⟩ 3 = 800000000 ∧
      RetryConfig.backoff ⟨3, 100000000, 1000000000, [], none⟩ 4 = 1000000000 := by
  refine ⟨?_, by decide, by decide, by decide, by decide, by decide⟩
  intro r n h _
  simp only [RetryConfig.backoff]
  rw [h]
  rcases le_or_lt (r.baseDelay * 2 ^ n) r.maxDelay with hle | hgt
  · rw [if_neg (not_lt.mpr hle), min_eq_left hle]
  · rw [if_pos hgt, min_eq_right hgt.le]

/-- Witness for c2_backoff_amended at base = 100ms, max = 1s, n = 3. -/
theorem c2_backoff_witness :
    RetryConfig.backoff ⟨3, 100000000, 1000000000, [], none⟩ 3 =
      min ((100000000 : Int) * 2 ^ 3) (1000000000 : Int) :=
  c2_backoff_amended.1 ⟨3, 100000000, 1000000000, [], none⟩ 3 (by decide) (by decide)

/-- C10: applyDefaults replaces every non-positive field of a RetryConfig by
its default (MaxRetries 3, BaseDelay 500ms, MaxDelay 10s, RetryOn
{429, 502, 503, 504} when empty and no custom predicate), and in particular a
WithRetry client built from MaxRetries = 0 performs 1 + 3 = 4 attempts
against a server that always answers 503. -/
theorem c10_apply_defaults :
    (∀ cfg : RetryConfig,
        (cfg.maxRetries ≤ 0 → cfg.applyDefaults.maxRetries = 3) ∧
        (cfg.baseDelay ≤ 0 → cfg.applyDefaults.baseDelay = 500000000) ∧
        (cfg.maxDelay ≤ 0 → cfg.applyDefaults.maxDelay = 10000000000) ∧
        (cfg.retryOn = [] → cfg.shouldRetry = none →
          cfg.applyDefaults.retryOn = [429, 502, 503, 504])) ∧
      (RequestBytes (newClient.withRetry ⟨0, 0, 0, [], none⟩)
        envAlways503).attemptsMade = 4 := by
  refine ⟨fun cfg => ⟨fun h => ?_, fun h => ?_, fun h => ?_, fun h1 h2 => ?_⟩, rfl⟩
  · simp [RetryConfig.applyDefaults, h]
  · simp [RetryConfig.applyDefaults, h]
  · simp [RetryConfig.applyDefaults, h]
  · simp [RetryConfig.applyDefaults, h1, h2]

/-- Witness for c10_apply_defaults at the all-zero configuration. -/
theorem c10_apply_defaults_witness :
    (RetryConfig.applyDefaults ⟨0, 0, 0, [], none⟩).maxRetries = 3 ∧
      (RetryConfig.applyDefaults ⟨0, 0, 0, [], none⟩).baseDelay = 500000000 ∧
      (RetryConfig.applyDefaults ⟨0, 0, 0, [], none⟩).maxDelay = 10000000000 ∧
      (RetryConfig.applyDefaults ⟨0, 0, 0, [], none⟩).retryOn = [429, 502, 503, 504] ∧
      (RequestBytes (newClient.withRetry ⟨0, 0, 0, [], none⟩)
        envAlways503).attemptsMade = 4 :=
  ⟨((c10_apply_defaults.1 ⟨0, 0, 0, [], none⟩).1 (by decide)),
   ((c10_apply_defaults.1 ⟨0, 0, 0, [], none⟩).2.1 (by decide)),
   ((c10_apply_defaults.1 ⟨0, 0, 0, [], none⟩).2.2.1 (by decide)),
   ((c10_apply_defaults.1 ⟨0, 0, 0, [], none⟩).2.2.2 rfl rfl),
   c10_apply_defaults.2⟩

/-- C6: a custom ShouldRetry predicate fully decides retryability: for every
(resp, err) pair isRetryable returns exactly the predicate's result, and a
transport error whose predicate answer is false is not retried: the call
returns after exactly 1 attempt with the transport error. -/
theorem c6_should_retry_override :
    (∀ (r : RetryConfig) (p : Option Int → Option TransportErr → Bool)
        (resp : Option Int) (err : Option TransportErr),
        r.shouldRetry = some p → r.isRetryable resp err = p resp err) ∧
      (∀ (cfg : RetryConfig) (p : Option Int → Option TransportErr → Bool)
          (env : Env) (e : TransportErr),
          cfg.shouldRetry = some p → env.outcome 0 = .transportErr e →
          p none (some e) = false →
          RequestBytes (newClient.withRetry cfg) env =
            ⟨none, some (.execFail e), 1⟩) := by
  constructor
  · intro r p resp err hp
    unfold RetryConfig.isRetryable
    rw [hp]
  · intro cfg p env e hp h0 hpe
    have h1 : (1 : Int) ≤ cfg.applyDefaults.maxRetries :=
      one_le_applyDefaults_maxRetries cfg
    have hexp : RequestBytes (newClient.withRetry cfg) env =
        runLoop (some cfg.applyDefaults) (1 + cfg.applyDefaults.maxRetries) env 0
          (1 + cfg.applyDefaults.maxRetries).toNat none none := rfl
    obtain ⟨k, hk⟩ : ∃ k, (1 + cfg.applyDefaults.maxRetries).toNat = k + 1 :=
      ⟨(1 + cfg.applyDefaults.maxRetries).toNat - 1, by omega⟩
    rw [hexp, hk]
    simp only [runLoop]
    rw [if_neg (by simp)]
    have hsr : cfg.applyDefaults.shouldRetry = some p := hp
    have hgate : retryGate (some cfg.applyDefaults) none (some e) = false := by
      unfold retryGate RetryConfig.isRetryable
      dsimp only
      rw [hsr]
      exact hpe
    rw [h0]
    dsimp only
    rw [if_neg (by rw [hgate]; simp)]

/-- Witness for c6_should_retry_override with an always-false predicate. -/
theorem c6_should_retry_witness :
    RetryConfig.isRetryable ⟨1, 1, 1, [], some (fun _ _ => false)⟩ none (some 0) =
        (fun (_ : Option Int) (_ : Option TransportErr) => false) none (some 0) ∧
      RequestBytes
          (newClient.withRetry ⟨1, 1, 1, [], some (fun _ _ => false)⟩)
          ⟨fun _ => .transportErr 7, fun _ => false⟩ =
        ⟨none, some (.execFail 7), 1⟩ :=
  ⟨c6_should_retry_override.1 ⟨1, 1, 1, [], some (fun _ _ => false)⟩
      (fun _ _ => false) none (some 0) rfl,
   c6_should_retry_override.2 ⟨1, 1, 1, [], some (fun _ _ => false)⟩
      (fun _ _ => false) ⟨fun _ => .transportErr 7, fun _ => false⟩ 7 rfl rfl rfl⟩

/-- C7: under the default retry policy, a first attempt answered with a
status that is at least 400 and outside {429, 502, 503, 504} returns
immediately: exactly 1 attempt, the api-status error, and the received body. -/
theorem c7_non_retryable_immediate (env : Env) (s : Int) (b : String)
    (h0 : env.outcome 0 = .response s b) (h4 : 400 ≤ s)
    (hs : s ∉ ([429, 502, 503, 504] : List Int)) :
    RequestBytes (newClient.withRetry ⟨0, 0, 0, [], none⟩) env =
      ⟨some b, some (.apiStatus s), 1⟩ := by
  have hexp : RequestBytes (newClient.withRetry ⟨0, 0, 0, [], none⟩) env =
      runLoop (some (RetryConfig.applyDefaults ⟨0, 0, 0, [], none⟩)) 4 env 0
        (3 + 1) none none := rfl
  rw [hexp]
  simp only [runLoop]
  rw [if_neg (by simp), h0]
  have hgate : retryGate (some (RetryConfig.applyDefaults ⟨0, 0, 0, [], none⟩))
      (some s) none = false := by
    show statusIn [429, 502, 503, 504] s = false
    exact statusIn_eq_false_of_not_mem _ _ hs
  dsimp only
  rw [if_pos h4, if_neg (by rw [hgate]; simp)]

/-- Witness for c7_non_retryable_immediate with a 400 answer. -/
theorem c7_non_retryable_witness :
    RequestBytes (newClient.withRetry ⟨0, 0, 0, [], none⟩)
        ⟨fun _ => .response 400 "bad request", fun _ => false⟩ =
      ⟨some "bad request", some (.apiStatus 400), 1⟩ :=
  c7_non_retryable_immediate ⟨fun _ => .response 400 "bad request", fun _ => false⟩
    400 "bad request" rfl (by decide) (by decide)

/-- C1, counterexample: the attempt count is not 1 + MaxRetries for every
configuration passed to WithRetry. With MaxRetries = 0 applyDefaults raises
the count to 3, so a server that always answers 503 sees 4 attempts, not
1 + 0 = 1. -/
theorem c1_retry_counterexample :
    (RequestBytes (newClient.withRetry ⟨0, 0, 0, [], none⟩)
      envAlways503).attemptsMade ≠ 1 + 0 := by
  decide

/-- C1, amended: for a client built with WithRetry from a configuration with
MaxRetries = m for any m ≥ 1 (values ≤ 0 are replaced by the default 3,
see c10_apply_defaults), if every attempt fails retryably and the context is
never cancelled, exactly 1 + m attempts run and the call returns the
exhaustion error carrying the attempt count 1 + m and wrapping the error of
the last attempt, together with the last received response body (if any,
as accumulated by trackBody). -/
theorem c1_retry_exhaustion (cfg : RetryConfig) (m : Nat) (env : Env)
    (hm : 1 ≤ m) (hcfg : cfg.maxRetries = (m : Int))
    (hfail : ∀ i, i < 1 + m → failsRetryably cfg.applyDefaults env i = true)
    (hnc : ∀ i, env.cancelledBefore i = false) :
    RequestBytes (newClient.withRetry cfg) env =
      ⟨trackBody env 0 (1 + m) none,
       some (.allAttemptsFailed (1 + (m : Int)) (some (outcomeErr (env.outcome m)))),
       1 + m⟩ := by
  have hmr : cfg.applyDefaults.maxRetries = (m : Int) := by
    show (if cfg.maxRetries ≤ 0 then 3 else cfg.maxRetries) = (m : Int)
    rw [if_neg (by rw [hcfg]; omega), hcfg]
  have hexp : RequestBytes (newClient.withRetry cfg) env =
      runLoop (some cfg.applyDefaults) (1 + cfg.applyDefaults.maxRetries) env 0
        (1 + cfg.applyDefaults.maxRetries).toNat none none := rfl
  rw [hexp, hmr]
  have htn : ((1 : Int) + (m : Int)).toNat = 1 + m := by omega
  rw [htn]
  rw [runLoop_exhaust cfg.applyDefaults (1 + (m : Int)) env (1 + m) 0 none none
      (fun j hj => by simpa using hfail j hj)
      (fun j hj => by simpa using hnc j)]
  rw [show 1 + m = m + 1 from by omega, trackErr_last env m 0 none, Nat.zero_add]

/-- Witness for c1_retry_exhaustion: MaxRetries = 2 against a server that
always answers 503 gives 3 attempts and the exhaustion error for count 3. -/
theorem c1_retry_exhaustion_witness :
    RequestBytes (newClient.withRetry ⟨2, 0, 0, [], none⟩) envAlways503 =
      ⟨some "service unavailable",
       some (.allAttemptsFailed 3 (some (.apiStatus 503))), 3⟩ :=
  (c1_retry_exhaustion ⟨2, 0, 0, [], none⟩ 2 envAlways503 (by decide) rfl
    (by decide) (fun _ => rfl)).trans rfl

/-- C5: if the cancellation branch of the select fires during the wait before
attempt k (earlier attempts all failing retryably, no earlier cancellation),
the call stops after exactly the k attempts already made and returns the
context cancellation error, not the attempts-exhausted error. -/
theorem c5_cancel_during_wait (cfg : RetryConfig) (env : Env) (k : Nat)
    (hk1 : 1 ≤ k) (hk2 : k < (1 + cfg.applyDefaults.maxRetries).toNat)
    (hfail : ∀ i, i < k → failsRetryably cfg.applyDefaults env i = true)
    (hnc : ∀ i, i < k → env.cancelledBefore i = false)
    (hcan : env.cancelledBefore k = true) :
    RequestBytes (newClient.withRetry cfg) env =
      ⟨trackBody env 0 k none, some .ctxCancelled, k⟩ := by
  have hexp : RequestBytes (newClient.withRetry cfg) env =
      runLoop (some cfg.applyDefaults) (1 + cfg.applyDefaults.maxRetries) env 0
        (1 + cfg.applyDefaults.maxRetries).toNat none none := rfl
  rw [hexp]
  exact runLoop_cancel cfg.applyDefaults (1 + cfg.applyDefaults.maxRetries) env k 0
    (1 + cfg.applyDefaults.maxRetries).toNat none none hk2 (by omega)
    (fun j hj => by simpa using hfail j hj)
    (fun j hj => by simpa using hnc j hj)
    (by simpa using hcan)

/-- Witness for c5_cancel_during_wait: cancellation before attempt 2 against
an always-503 server stops after 2 attempts with the cancellation error. -/
theorem c5_cancel_during_wait_witness :
    RequestBytes (newClient.withRetry ⟨3, 0, 0, [], none⟩)
        ⟨fun _ => .response 503 "overloaded", fun i => decide (i = 2)⟩ =
      ⟨some "overloaded", some .ctxCancelled, 2⟩ :=
  (c5_cancel_during_wait ⟨3, 0, 0, [], none⟩
    ⟨fun _ => .response 503 "overloaded", fun i => decide (i = 2)⟩ 2
    (by decide) (by decide) (by decide) (by decide) (by decide)).trans rfl

/-! ### Part 2: router, response writer and error translation -/

/-- A body chunk written to the underlying http.ResponseWriter: either raw
bytes a handler wrote itself, or one encoded AppResponse envelope as produced
by JSONResponse (code, data with none for JSON null, error string). -/
inductive Chunk where
  | raw (s : String)
  | envelope (code : Int) (data : Option String) (error : String)
deriving DecidableEq

/-- Observation of everything forwarded to the underlying response writer:
every WriteHeader call that reached it, every body chunk, every header field
set, plus an event log used only to observe middleware execution order. -/
structure Sink where
  headerCalls : List Int
  chunks : List Chunk
  fields : List (String × String)
  events : List String
deriving DecidableEq

def emptySink : Sink := ⟨[], [], [], []⟩

/-- The responseWriter wrapper from group.go: the underlying writer plus the
headerWritten flag. -/
structure RW where
  sink : Sink
  headerWritten : Bool
deriving DecidableEq

def Sink.setField (s : Sink) (k v : String) : Sink :=
  { s with fields := s.fields ++ [(k, v)] }

def Sink.addEvent (s : Sink) (t : String) : Sink :=
  { s with events := s.events ++ [t] }

def RW.setHeader (rw : RW) (k v : String) : RW :=
  { rw with sink := rw.sink.setField k v }

/-- responseWriter.WriteHeader: forwards to the underlying writer only the
first time, afterwards the call is silently dropped. -/
def RW.writeHeader (rw : RW) (code : Int) : RW :=
  if rw.headerWritten then rw
  else { sink := { rw.sink with headerCalls := rw.sink.headerCalls ++ [code] },
         headerWritten := true }

/-- responseWriter.Write: commits status 200 first if no status was written,
then forwards the body chunk. -/
def RW.write (rw : RW) (c : Chunk) : RW :=
  let rw1 := if rw.headerWritten then rw else rw.writeHeader 200
  { rw1 with sink := { rw1.sink with chunks := rw1.sink.chunks ++ [c] } }

/-- Go error values as the router sees them, from the errors package in the
sources (the AppError struct with fields Code, Message and Err). appError
carries Code and Message; the Err cause field is omitted because no code path
reads it: AppError.Error() returns only the Message, and AppError has no
Unwrap method, so errors.As never descends into Err. plain models
errors.New(msg); wrap models a fmt.Errorf("...: %w", inner) wrapper whose
formatted text is full and which errors.As unwraps into inner. -/
inductive GoError where
  | appError (code : Int) (message : String)
  | plain (msg : String)
  | wrap (full : String) (inner : GoError)

/-- errors.As(err, &appErr): walk the chain of %w wrappers looking for a
*AppError, returning its Code and Message (all the router reads from it). -/
def asAppError : GoError → Option (Int × String)
  | .appError c m => some (c, m)
  | .plain _ => none
  | .wrap _ inner => asAppError inner

/-- err.Error(): AppError.Error() in the errors package returns e.Message;
errors.New and fmt.Errorf errors return their own text. -/
def GoError.errorString : GoError → String
  | .appError _ m => m
  | .plain m => m
  | .wrap full _ => full

/-- JSONResponse from context.go: if the writer reports HeaderWritten, do
nothing (in the router path the writer is always the responseWriter wrapper,
so the interface assertion always succeeds); otherwise set Content-Type,
write the status and encode the AppResponse envelope whose Error field is
err.Error() when err is non-nil and empty otherwise. -/
def jsonResponse (rw : RW) (status : Int) (data : Option String)
    (e : Option GoError) : RW :=
  if rw.headerWritten then rw
  else
    let rw1 := rw.setHeader "Content-Type" "application/json"
    let rw2 := rw1.writeHeader status
    rw2.write (.envelope status data
      (match e with
       | some ge => ge.errorString
       | none => ""))

/-- HandlerFunc from group.go: receives the context (whose writer is the
wrapper) and returns the updated writer state together with the returned
error. The request side is irrelevant to the claims and omitted. -/
abbrev HandlerFunc := RW → RW × Option GoError

/-- http.Handler: a transformer of the underlying response writer. -/
abbrev HttpHandler := Sink → Sink

abbrev Middleware := HttpHandler → HttpHandler

/-- The standardHandler closure built inside Router.Handle: wrap the writer,
run the user handler, and translate a returned error into an envelope unless
a response was already written. -/
def standardHandler (h : HandlerFunc) : HttpHandler := fun w =>
  let res := h ⟨w, false⟩
  match res.2 with
  | none => res.1.sink
  | some e =>
    if res.1.headerWritten then res.1.sink
    else
      match asAppError e with
      | some cm => (jsonResponse res.1 cm.1 none (some (.appError cm.1 cm.2))).sink
      | none => (jsonResponse res.1 500 none (some (.plain "internal server error"))).sink

/-- The middleware fold of Router.Handle (lines 114-117): iterate i from
len-1 down to 0 wrapping finalHandler = middlewares[i](finalHandler), which
is the right fold below: the first-registered middleware ends up outermost. -/
def chain (mws : List Middleware) (h : HttpHandler) : HttpHandler :=
  mws.foldr (fun mw acc => mw acc) h

/-- A middleware that records a tag in the event log and then calls the next
handler; used to observe execution order. -/
def tagMw (t : String) : Middleware := fun next => fun w => next (w.addEvent t)

structure RouteEntry where
  method : String
  path : String
deriving DecidableEq

/-- A Router value as Handle/Group/Use see it: the accumulated path
concatenation and the identity of its middleware slice. The slices themselves
live in World.tables: Group allocates a fresh slice (the source copies with
append(nil-slice, parent...)) while the routes list and mux are shared by all
routers of one tree. -/
structure RouterRef where
  basePath : String
  mwId : Nat

/-- The state shared by a router tree: one middleware slice per router,
the append-only route registry, and the mux (pattern, finalHandler) table. -/
structure World where
  tables : List (List Middleware)
  routes : List RouteEntry
  mux : List (String × HttpHandler)

/-- NewRouter: empty path, fresh empty middleware slice. -/
def newRouter (w : World) : World × RouterRef :=
  ({ w with tables := w.tables ++ [[]] }, ⟨"", w.tables.length⟩)

/-- Router.Group: same routes and mux, concatenated path, and a fresh copy of
the parent's middleware slice. -/
def World.group (w : World) (r : RouterRef) (path : String) : World × RouterRef :=
  ({ w with tables := w.tables ++ [w.tables.getD r.mwId []] },
   ⟨r.basePath ++ path, w.tables.length⟩)

/-- Router.Use: append middleware to this router's own slice. -/
def World.use (w : World) (r : RouterRef) (mws : List Middleware) : World :=
  { w with tables := w.tables.set r.mwId (w.tables.getD r.mwId [] ++ mws) }

/-- Router.Handle: build the final handler by folding this router's current
middleware slice around the standard handler, append the display entry to the
shared route registry (the Go source displays an empty full path as "/"), and
register the pattern in the shared mux. -/
def World.handle (w : World) (r : RouterRef) (method path : String)
    (h : HandlerFunc) : World :=
  let full := r.basePath ++ path
  let display := if full = "" then "/" else full
  { w with
    routes := w.routes ++ [⟨method, display⟩],
    mux := w.mux ++
      [(method ++ " " ++ full, chain (w.tables.getD r.mwId []) (standardHandler h))] }

/-! ### Helper lemmas for the router -/

lemma getD_append_length {α : Type} (l : List α) (x : α) (d : α) :
    (l ++ [x]).getD l.length d = x := by
  induction l with
  | nil => rfl
  | cons a t ih => simp [ih]

lemma getD_set_ne {α : Type} (l : List α) (i j : Nat) (v d : α) (h : i ≠ j) :
    (l.set i v).getD j d = l.getD j d := by
  induction l generalizing i j with
  | nil => rfl
  | cons a t ih =>
    cases i with
    | zero =>
      cases j with
      | zero => exact absurd rfl h
      | succ j => rfl
    | succ i =>
      cases j with
      | zero => rfl
      | succ j => simpa using ih i j (by omega)

/-- The write-once invariant of the responseWriter wrapper: at most one
status has been forwarded, and none before the flag is set. -/
def rwInv (rw : RW) : Prop :=
  rw.sink.headerCalls.length ≤ 1 ∧
    (rw.headerWritten = false → rw.sink.headerCalls = [])

lemma rwInv_writeHeader (rw : RW) (c : Int) (h : rwInv rw) :
    rwInv (rw.writeHeader c) := by
  obtain ⟨h1, h2⟩ := h
  unfold RW.writeHeader
  cases hw : rw.headerWritten with
  | true => simpa using ⟨h1, h2⟩
  | false =>
    have he : rw.sink.headerCalls = [] := h2 hw
    simp [rwInv, he]

lemma rwInv_write (rw : RW) (c : Chunk) (h : rwInv rw) : rwInv (rw.write c) := by
  have h1 : rwInv (if rw.headerWritten then rw else rw.writeHeader 200) := by
    cases hw : rw.headerWritten with
    | true => simpa [hw] using h
    | false => simpa [hw] using rwInv_writeHeader rw 200 h
  unfold RW.write
  exact ⟨h1.1, h1.2⟩

/-- A status-setting or body-writing call against the wrapper. -/
inductive WOp where
  | setStatus (code : Int)
  | writeBody (c : Chunk)

def WOp.apply (rw : RW) : WOp → RW
  | .setStatus c => rw.writeHeader c
  | .writeBody b => rw.write b

/-- Run a sequence of writer calls against a fresh wrapper. -/
def runOps (ops : List WOp) : RW := ops.foldl WOp.apply ⟨emptySink, false⟩

lemma rwInv_foldl (ops : List WOp) :
    ∀ rw, rwInv rw → rwInv (ops.foldl WOp.apply rw) := by
  induction ops with
  | nil => intro rw h; exact h
  | cons op rest ih =>
    intro rw h
    refine ih (WOp.apply rw op) ?_
    cases op with
    | setStatus c => exact rwInv_writeHeader rw c h
    | writeBody c => exact rwInv_write rw c h

/-- Handler returning an AppError with 404 / "user not found". -/
def handlerNotFound : HandlerFunc := fun rw =>
  (rw, some (.appError 404 "user not found"))

/-- Handler that writes its own 200 response and then returns an error. -/
def handlerWriteThenFail : HandlerFunc := fun rw =>
  (rw.write (.raw "hello"), some (.plain "boom"))

/-! ### Claims about the router -/

/-- C3: when a handler returns an error and nothing was written yet, the
standard handler writes exactly one envelope: for an error unwrapping to an
AppError with code c and message m, the envelope (c, null, m) with status c;
for any other error, the envelope (500, null, "internal server error") with
status 500; and when a response was already written, nothing further. -/
theorem c3_error_translation (h : HandlerFunc) (w s1 : Sink) (e : GoError) :
    (h ⟨w, false⟩ = (⟨s1, false⟩, some e) →
      (∀ c m, asAppError e = some (c, m) →
        standardHandler h w =
          { headerCalls := s1.headerCalls ++ [c],
            chunks := s1.chunks ++ [.envelope c none m],
            fields := s1.fields ++ [("Content-Type", "application/json")],
            events := s1.events }) ∧
      (asAppError e = none →
        standardHandler h w =
          { headerCalls := s1.headerCalls ++ [500],
            chunks := s1.chunks ++ [.envelope 500 none "internal server error"],
            fields := s1.fields ++ [("Content-Type", "application/json")],
            events := s1.events })) ∧
    (h ⟨w, false⟩ = (⟨s1, true⟩, some e) → standardHandler h w = s1) := by
  constructor
  · intro hres
    constructor
    · intro c m happ
      unfold standardHandler
      rw [hres]
      dsimp only
      rw [happ]
      rfl
    · intro happ
      unfold standardHandler
      rw [hres]
      dsimp only
      rw [happ]
      rfl
  · intro hres
    unfold standardHandler
    rw [hres]
    rfl

/-- Witness for c3_error_translation: a 404 "user not found" AppError yields
the envelope with code 404, null data and the message, under status 404. -/
theorem c3_error_translation_witness :
    standardHandler handlerNotFound emptySink =
      ⟨[404], [.envelope 404 none "user not found"],
       [("Content-Type", "application/json")], []⟩ :=
  ((c3_error_translation handlerNotFound emptySink emptySink
      (.appError 404 "user not found")).1 rfl).1 404 "user not found" rfl

/-- C4: the response writer enforces write-once: any sequence of status and
body calls forwards at most one status; a status call after the first is
dropped entirely; a body write without a prior status commits status 200; and
a handler that already wrote its response and then returns an error causes no
further status or body write from the router. -/
theorem c4_write_once :
    (∀ ops : List WOp, ((runOps ops).sink.headerCalls).length ≤ 1) ∧
      (∀ (rw : RW) (c : Int), rw.headerWritten = true → rw.writeHeader c = rw) ∧
      (∀ (rw : RW) (c : Chunk), rw.headerWritten = false →
        (rw.write c).sink.headerCalls = rw.sink.headerCalls ++ [200] ∧
          (rw.write c).headerWritten = true) ∧
      (∀ (h : HandlerFunc) (w s1 : Sink) (e : GoError),
        h ⟨w, false⟩ = (⟨s1, true⟩, some e) → standardHandler h w = s1) := by
  refine ⟨?_, ?_, ?_, ?_⟩
  · intro ops
    exact (rwInv_foldl ops ⟨emptySink, false⟩ ⟨by simp [emptySink], fun _ => rfl⟩).1
  · intro rw c h
    unfold RW.writeHeader
    rw [if_pos h]
  · intro rw c h
    constructor <;> simp [RW.write, RW.writeHeader, h]
  · intro h w s1 e hres
    unfold standardHandler
    rw [hres]
    rfl

/-- Witness for c4_write_once on concrete writer calls and a handler that
writes 200 "hello" and then fails. -/
theorem c4_write_once_witness :
    ((runOps [.setStatus 201, .writeBody (.raw "ok"),
        .setStatus 500]).sink.headerCalls).length ≤ 1 ∧
      RW.writeHeader ⟨emptySink, true⟩ 500 = ⟨emptySink, true⟩ ∧
      (RW.write ⟨emptySink, false⟩ (.raw "ok")).sink.headerCalls =
        emptySink.headerCalls ++ [200] ∧
      standardHandler handlerWriteThenFail emptySink =
        ⟨[200], [.raw "hello"], [], []⟩ :=
  ⟨c4_write_once.1 [.setStatus 201, .writeBody (.raw "ok"), .setStatus 500],
   c4_write_once.2.1 ⟨emptySink, true⟩ 500 rfl,
   (c4_write_once.2.2.1 ⟨emptySink, false⟩ (.raw "ok") rfl).1,
   c4_write_once.2.2.2 handlerWriteThenFail emptySink
     ⟨[200], [.raw "hello"], [], []⟩ (.plain "boom") rfl⟩

/-- C8: the middleware fold of Handle builds m1 (m2 (... mk (handler))), so
the first-registered middleware runs first on every request: a chain of
tagged middlewares prepends its tags to the event log in registration order
before the handler runs; Handle registers exactly that chain in the mux; and
two recording middlewares produce [first, second, handler]. -/
theorem c8_middleware_order :
    (∀ (tags : List String) (h : HttpHandler) (w : Sink),
        chain (tags.map tagMw) h w = h { w with events := w.events ++ tags }) ∧
      (∀ (w : World) (r : RouterRef) (method path : String) (h : HandlerFunc),
        (w.handle r method path h).mux = w.mux ++
          [(method ++ " " ++ (r.basePath ++ path),
            chain (w.tables.getD r.mwId []) (standardHandler h))]) ∧
      (chain [tagMw "first", tagMw "second"]
          (fun w => w.addEvent "handler") emptySink).events =
        ["first", "second", "handler"] := by
  refine ⟨?_, fun w r method path h => rfl, rfl⟩
  intro tags
  induction tags with
  | nil => intro h w; simp [chain]
  | cons t rest ih =>
    intro h w
    show chain (rest.map tagMw) h (w.addEvent t) = _
    rw [ih]
    congr 1
    simp [Sink.addEvent]

/-- A middleware list registered only on a child group in the witness. -/
def mwsEx : List Middleware := [tagMw "child-only"]

/-- C9: Group returns a child sharing the parent's route registry and mux,
with concatenated path and a copied middleware slice under a fresh identity;
Use on the child rewrites only the child's slice, so the slices of the
parent and of a sibling group are untouched and a route registered on the
parent or the sibling afterwards gets exactly the handler it would have had
without the child's middleware. -/
theorem c9_group_isolation (w : World) (r : RouterRef) (p q : String)
    (mws : List Middleware) (wc ws : World) (child sib : RouterRef)
    (hr : r.mwId < w.tables.length)
    (hwc : (w.group r p).1 = wc) (hchild : (w.group r p).2 = child)
    (hws : (wc.group r q).1 = ws) (hsib : (wc.group r q).2 = sib) :
    child.basePath = r.basePath ++ p ∧
      wc.tables.getD child.mwId [] = w.tables.getD r.mwId [] ∧
      child.mwId ≠ r.mwId ∧ sib.mwId ≠ r.mwId ∧ sib.mwId ≠ child.mwId ∧
      wc.routes = w.routes ∧ wc.mux = w.mux ∧
      (ws.use child mws).tables.getD r.mwId [] = ws.tables.getD r.mwId [] ∧
      (ws.use child mws).tables.getD sib.mwId [] = ws.tables.getD sib.mwId [] ∧
      (∀ (method path : String) (h : HandlerFunc),
        ((ws.use child mws).handle r method path h).mux =
          (ws.use child mws).mux ++
            [(method ++ " " ++ (r.basePath ++ path),
              chain (ws.tables.getD r.mwId []) (standardHandler h))] ∧
        ((ws.use child mws).handle sib method path h).mux =
          (ws.use child mws).mux ++
            [(method ++ " " ++ (sib.basePath ++ path),
              chain (ws.tables.getD sib.mwId []) (standardHandler h))]) := by
  subst hwc hchild hws hsib
  have hchildId : (w.group r p).2.mwId = w.tables.length := rfl
  have hsibId : ((w.group r p).1.group r q).2.mwId = w.tables.length + 1 := by
    show ((w.group r p).1.tables).length = w.tables.length + 1
    show (w.tables ++ [w.tables.getD r.mwId []]).length = w.tables.length + 1
    simp
  have hne1 : (w.group r p).2.mwId ≠ r.mwId := by rw [hchildId]; omega
  have hne2 : ((w.group r p).1.group r q).2.mwId ≠ r.mwId := by rw [hsibId]; omega
  have hne3 : ((w.group r p).1.group r q).2.mwId ≠ (w.group r p).2.mwId := by
    rw [hsibId, hchildId]; omega
  have h8 : (((w.group r p).1.group r q).1.use (w.group r p).2 mws).tables.getD
      r.mwId [] = ((w.group r p).1.group r q).1.tables.getD r.mwId [] :=
    getD_set_ne _ _ _ _ _ hne1
  have h9 : (((w.group r p).1.group r q).1.use (w.group r p).2 mws).tables.getD
      ((w.group r p).1.group r q).2.mwId [] =
      ((w.group r p).1.group r q).1.tables.getD
        ((w.group r p).1.group r q).2.mwId [] :=
    getD_set_ne _ _ _ _ _ (fun hx => hne3 hx.symm)
  refine ⟨rfl, ?_, hne1, hne2, hne3, rfl, rfl, h8, h9, ?_⟩
  · exact getD_append_length w.tables (w.tables.getD r.mwId []) []
  · intro method path h
    constructor
    · show (((w.group r p).1.group r q).1.use (w.group r p).2 mws).mux ++
          [(method ++ " " ++ (r.basePath ++ path),
            chain ((((w.group r p).1.group r q).1.use (w.group r p).2
              mws).tables.getD r.mwId []) (standardHandler h))] = _
      rw [h8]
    · show (((w.group r p).1.group r q).1.use (w.group r p).2 mws).mux ++
          [(method ++ " " ++ (((w.group r p).1.group r q).2.basePath ++ path),
            chain ((((w.group r p).1.group r q).1.use (w.group r p).2
              mws).tables.getD ((w.group r p).1.group r q).2.mwId [])
              (standardHandler h))] = _
      rw [h9]

/-- Witness for c9_group_isolation: a one-router world, a child group at
"/api" given its own middleware, a sibling group at "/v2"; the parent's
middleware slice is untouched by the child's Use, and a route then registered
on the parent gets the handler chained from the parent's original slice. -/
theorem c9_group_isolation_witness :
    (⟨"/api", 1⟩ : RouterRef).basePath = "" ++ "/api" ∧
      ((⟨[[], [], []], [], []⟩ : World).use ⟨"/api", 1⟩ mwsEx).tables.getD 0 [] =
        (⟨[[], [], []], [], []⟩ : World).tables.getD 0 [] ∧
      (((⟨[[], [], []], [], []⟩ : World).use ⟨"/api", 1⟩ mwsEx).handle ⟨"", 0⟩
          "GET" "/x" handlerNotFound).mux =
        ((⟨[[], [], []], [], []⟩ : World).use ⟨"/api", 1⟩ mwsEx).mux ++
          [("GET" ++ " " ++ ("" ++ "/x"),
            chain ((⟨[[], [], []], [], []⟩ : World).tables.getD 0 [])
              (standardHandler handlerNotFound))] :=
  have h := c9_group_isolation ⟨[[]], [], []⟩ ⟨"", 0⟩ "/api" "/v2" mwsEx
    ⟨[[], []], [], []⟩ ⟨[[], [], []], [], []⟩ ⟨"/api", 1⟩ ⟨"/v2", 2⟩
    (by decide) rfl rfl rfl rfl
  ⟨h.1, h.2.2.2.2.2.2.2.1,
   (h.2.2.2.2.2.2.2.2.2 "GET" "/x" handlerNotFound).1⟩
